import Mathlib

/-!
Shallow embedding of the backup-creation pipeline of
`prime_backup/action/create_backup_action.py` (the ingest coordinator, the
per-file blob-creation attempt, the retry loop, the batch query manager and
the cooperative scheduler), together with theorems settling the spec claims.

Machine integers of the source are Python unbounded ints; they are embedded
as `Nat` (sizes, devices, counts) and `Int` (`st_mtime_ns`, which may be
negative for pre-epoch timestamps).  `time.time()` values are embedded as
integer milliseconds (`ℤ`), so the source's 0.1 s batching window is the
literal 100.  Fallible code returns `Except`.  Side effects (BQM yields,
rollback-list appends, temp-file and blob-file writes) are reified as an
explicit event trace.
-/

namespace PrimeBackup

/-- Compression methods of `prime_backup/compressors` as referenced by
`attempt_once` (`CompressMethod.plain` is the one that matters for the
copy-on-write predicate). -/
inductive CompressMethod
  | plain
  | gzip
  | zstd
  | lzma
deriving DecidableEq

/-- A catalog Blob row: `_create_blob(hash=..., compress=..., raw_size=...,
stored_size=...)` (lines 597-603 of `create_backup_action.py`). -/
structure Blob where
  hash : String
  compress : CompressMethod
  rawSize : Nat
  storedSize : Nat
deriving DecidableEq

/-- `_BlobCreatePolicy` (lines 65-72). -/
inductive BlobCreatePolicy
  | read_all
  | hash_once
  | copy_hash
  | default
deriving DecidableEq

/-- `_BLOB_FILE_CHANGED_RETRY_COUNT = 3` (line 75). -/
def BLOB_FILE_CHANGED_RETRY_COUNT : Nat := 3

/-- `_READ_ALL_SIZE_THRESHOLD = 8 * 1024` (line 76). -/
def READ_ALL_SIZE_THRESHOLD : Nat := 8 * 1024

/-- `_HASH_ONCE_SIZE_THRESHOLD = 10 * 1024 * 1024` (line 77). -/
def HASH_ONCE_SIZE_THRESHOLD : Nat := 10 * 1024 * 1024

/-- The slice of `os.stat_result` that the blob-acquisition code reads:
`st_size` and `st_dev`. -/
structure Stat where
  size : Nat
  dev : Nat
deriving DecidableEq

/-- The configuration and probed-filesystem facts consulted by
`attempt_once`: `file_utils.HAS_COPY_FILE_RANGE`, the probed
`__blob_store_in_cow_fs`, the blob store device `__blob_store_st.st_dev`,
and `config.backup.get_compress_method_from_size`. -/
structure Cfg where
  hasCopyFileRange : Bool
  blobStoreInCowFs : Bool
  blobStoreDev : Nat
  compressFromSize : Nat → CompressMethod

/-- `can_copy_on_write` (lines 446-451): `HAS_COPY_FILE_RANGE` and the
compression chosen from the file size is `plain` and the blob store is on a
COW filesystem and the source file lives on the same device as the blob
store. -/
def canCow (cfg : Cfg) (st : Stat) : Bool :=
  cfg.hasCopyFileRange
    && decide (cfg.compressFromSize st.size = CompressMethod.plain)
    && cfg.blobStoreInCowFs
    && (st.dev == cfg.blobStoreDev)

/-- Modelled from the spec: `blob_utils.get_blob_path` is not under `src/`;
§4.4 gives `get_blob_path(H) = BS_ROOT / H[0:2] / H`. -/
def getBlobPath (h : String) : String :=
  "BS_ROOT/" ++ String.mk (h.toList.take 2) ++ "/" ++ h

/-- Reified side effects of one blob-creation attempt, in program order:
BQM yields (`yield BlobBySizeFetcher.Req` / `yield BlobByHashFetcher.Req`),
the point where the `policy` variable receives its final value, the point
where `blob_hash` is known and the dedup re-check runs, rollback-list
appends (`bp_rba`), and temp-file / blob-file writes. -/
inductive Event
  | attemptStart (idx : Nat) (lastChance : Bool)
  | policyChosen (p : BlobCreatePolicy)
  | sizeReq (sz : Nat)
  | hashKnown (h : String)
  | hashReq (h : String)
  | rollbackAdd (p : String)
  | writeTemp
  | removeTemp
  | writeBlob (p : String)
deriving DecidableEq

/-- Exceptions that can escape one `attempt_once` generator:
`_BlobFileChanged` and `_SourceFileNotFound` (a `FileNotFoundError`
subclass raised by the wrapped source reads). -/
inductive AErr
  | blobFileChanged
  | sourceFileNotFound
deriving DecidableEq

/-- The mutable context one attempt observes, reified as an oracle: the
popped `hashes` entry, whether the source file still exists when read, the
`(length, hash)` observed by the first and second source read of the
attempt, the compressor output length, the two `__blob_by_size_cache` /
`__blob_by_hash_cache` reads (the cache can be changed by other in-flight
tasks between the yield and the resume, so the two hash-cache reads are
independent slots), and whether `os.replace` succeeds. -/
structure AttemptOracle where
  preCalcHash : Option String
  srcExists : Bool
  read0Len : Nat
  read0Hash : String
  read1Len : Nat
  read1Hash : String
  storedLen : Nat
  sizeCacheAtCheck : Option Bool
  sizeAnswer : Bool
  hashCache1 : Option Blob
  hashCache2 : Option Blob

/-- Length observed by the i-th source read of the attempt. -/
def readLenAt (o : AttemptOracle) (i : Nat) : Nat :=
  if i = 0 then o.read0Len else o.read1Len

/-- Hash observed by the i-th source read of the attempt. -/
def readHashAt (o : AttemptOracle) (i : Nat) : String :=
  if i = 0 then o.read0Hash else o.read1Hash

/-- Result of the policy-selection phase: the chosen policy together with
the data it established (`blob_hash` when already known,
`len(blob_content)` for `read_all`, and for `default` the index of the
next unconsumed source read). -/
inductive Chosen
  | read_all (h : String) (contentLen : Nat)
  | hash_once
  | copy_hash
  | defaultWith (h : String) (nextRead : Nat)
deriving DecidableEq

/-- The `_BlobCreatePolicy` value corresponding to a selection result. -/
def chosenPolicy : Chosen → BlobCreatePolicy
  | Chosen.read_all _ _ => BlobCreatePolicy.read_all
  | Chosen.hash_once => BlobCreatePolicy.hash_once
  | Chosen.copy_hash => BlobCreatePolicy.copy_hash
  | Chosen.defaultWith _ _ => BlobCreatePolicy.default

/-- Policy-selection phase of `attempt_once` (lines 453-489): `last_chance`
forces `copy_hash`; a pre-computed hash forces `default`; otherwise, with
no COW copy available, small files take `read_all` (reading at most
`_READ_ALL_SIZE_THRESHOLD + 1` bytes and raising `_BlobFileChanged` if more
than the threshold came back), and large files of a size no existing blob
has (resolved from `__blob_by_size_cache`, after a `BlobBySizeFetcher.Req`
yield if unknown) take `hash_once`; every remaining case falls through to
`default` with the hash computed by `hash_utils.calc_file_hash`. -/
def attemptSelect (cfg : Cfg) (lastChance : Bool) (st : Stat) (o : AttemptOracle) :
    List Event × Except AErr Chosen :=
  if lastChance then
    ([Event.policyChosen BlobCreatePolicy.copy_hash], Except.ok Chosen.copy_hash)
  else match o.preCalcHash with
  | some h =>
      ([Event.policyChosen BlobCreatePolicy.default],
        Except.ok (Chosen.defaultWith h 0))
  | none =>
    if !canCow cfg st && st.size ≤ READ_ALL_SIZE_THRESHOLD then
      if !o.srcExists then
        ([Event.policyChosen BlobCreatePolicy.read_all], Except.error AErr.sourceFileNotFound)
      else
        let contentLen := min o.read0Len (READ_ALL_SIZE_THRESHOLD + 1)
        if READ_ALL_SIZE_THRESHOLD < contentLen then
          ([Event.policyChosen BlobCreatePolicy.read_all], Except.error AErr.blobFileChanged)
        else
          ([Event.policyChosen BlobCreatePolicy.read_all],
            Except.ok (Chosen.read_all o.read0Hash contentLen))
    else if !canCow cfg st && HASH_ONCE_SIZE_THRESHOLD < st.size then
      let preEvents : List Event :=
        match o.sizeCacheAtCheck with
        | none => [Event.sizeReq st.size]
        | some _ => []
      let canHashOnce : Bool :=
        match o.sizeCacheAtCheck with
        | none => o.sizeAnswer == false
        | some exist => exist == false
      if canHashOnce then
        (preEvents ++ [Event.policyChosen BlobCreatePolicy.hash_once],
          Except.ok Chosen.hash_once)
      else if !o.srcExists then
        (preEvents ++ [Event.policyChosen BlobCreatePolicy.default],
          Except.error AErr.sourceFileNotFound)
      else
        (preEvents ++ [Event.policyChosen BlobCreatePolicy.default],
          Except.ok (Chosen.defaultWith o.read0Hash 1))
    else if !o.srcExists then
      ([Event.policyChosen BlobCreatePolicy.default], Except.error AErr.sourceFileNotFound)
    else
      ([Event.policyChosen BlobCreatePolicy.default],
        Except.ok (Chosen.defaultWith o.read0Hash 1))

/-- The decision table of spec §4.6.3, written from the spec's words, to be
compared with the policy the embedded code actually chooses.  `sizeExists`
is the size-existence answer, possibly established via a size lookup. -/
def specPolicyTable (lastChance : Bool) (preCalcHash : Option String) (canCowFlag : Bool)
    (sz : Nat) (sizeExists : Bool) : BlobCreatePolicy :=
  if lastChance then BlobCreatePolicy.copy_hash
  else if preCalcHash.isSome then BlobCreatePolicy.default
  else if !canCowFlag && sz ≤ READ_ALL_SIZE_THRESHOLD then BlobCreatePolicy.read_all
  else if !canCowFlag && HASH_ONCE_SIZE_THRESHOLD < sz && !sizeExists then
    BlobCreatePolicy.hash_once
  else BlobCreatePolicy.default

/-- The size-existence value an attempt ends up acting on: the cached value
if `__blob_by_size_cache` already has one, else the value the size batch
put into the cache. -/
def resolvedSizeExists (o : AttemptOracle) : Bool :=
  match o.sizeCacheAtCheck with
  | some exist => exist
  | none => o.sizeAnswer

/-- The final value of the `policy` variable in one attempt, extracted from
the trace. -/
def attemptPolicyOf (evs : List Event) : Option BlobCreatePolicy :=
  (evs.filterMap fun e =>
    match e with
    | Event.policyChosen p => some p
    | _ => none).head?

/-- The dedup short-circuit (lines 495-499, repeated at lines 532-536 for
the `copy_hash` temp hash): consult `__blob_by_hash_cache`; on a miss,
yield a `BlobByHashFetcher.Req` and consult the cache again after the
resume.  Returns the cached Blob row if either read hits. -/
def dedupCheck (h : String) (cache1 cache2 : Option Blob) : List Event × Option Blob :=
  match cache1 with
  | some b => ([Event.hashKnown h], some b)
  | none =>
    match cache2 with
    | some b => ([Event.hashKnown h, Event.hashReq h], some b)
    | none => ([Event.hashKnown h, Event.hashReq h], none)

/-- `check_changes` (lines 505-509): the freshly observed size must equal
`st.st_size`, and when both an expected and a new hash are present they
must agree; otherwise `_BlobFileChanged`. -/
def checkChanges (stSize : Nat) (blobHash : Option String) (newSize : Nat)
    (newHash : Option String) : Except AErr Unit :=
  if newSize ≠ stSize then Except.error AErr.blobFileChanged
  else
    match blobHash, newHash with
    | some bh, some nh =>
        if nh ≠ bh then Except.error AErr.blobFileChanged else Except.ok ()
    | _, _ => Except.ok ()

/-- Modelled from the spec: `_create_blob` lives in the base class
`CreateBackupActionBase`, not under `src/`; §6 specifies it as
upsert-or-get of the row `(hash, compress, raw_size, stored_size)`.  In
this single-coordinator model it constructs the row. -/
def createBlobRow (h : String) (c : CompressMethod) (raw stored : Nat) : Blob :=
  ⟨h, c, raw, stored⟩

/-- Dedup-and-write phase of `attempt_once` (lines 492-603), entered with
the selection result.  `bp_rba` (lines 511-519) is the
`Event.rollbackAdd` immediately preceding every `Event.writeBlob` at the
same path.  In the `default` policy the blob file is written before
`check_changes` verifies it, so a `_BlobFileChanged` outcome can leave a
(rollback-listed) blob file behind. -/
def attemptFinish (cfg : Cfg) (st : Stat) (o : AttemptOracle) (sel : Chosen) :
    List Event × Except AErr Blob :=
  let compressMethod := cfg.compressFromSize st.size
  match sel with
  | Chosen.copy_hash =>
    -- lines 522-541: copy the source to a temp file, hash the temp file,
    -- re-run the dedup dance on that hash, then compress temp → blob path.
    if !o.srcExists then
      ([Event.removeTemp], Except.error AErr.sourceFileNotFound)
    else
      let tempHash := o.read0Hash
      let (dedupEvs, hit) := dedupCheck tempHash o.hashCache1 o.hashCache2
      match hit with
      | some b =>
          (Event.writeTemp :: dedupEvs ++ [Event.removeTemp], Except.ok b)
      | none =>
          let bp := getBlobPath tempHash
          (Event.writeTemp :: dedupEvs
              ++ [Event.rollbackAdd bp, Event.writeBlob bp, Event.removeTemp],
            Except.ok (createBlobRow tempHash compressMethod o.read0Len o.storedLen))
  | Chosen.hash_once =>
    -- lines 543-563: stream-compress-and-hash the source into a temp file,
    -- require the streamed size to match the stat size, then move the temp
    -- file to the blob path (`os.replace`, falling back to a copy).
    if !o.srcExists then
      ([Event.removeTemp], Except.error AErr.sourceFileNotFound)
    else
      match checkChanges st.size none o.read0Len none with
      | Except.error e =>
          ([Event.writeTemp, Event.removeTemp], Except.error e)
      | Except.ok _ =>
          let bp := getBlobPath o.read0Hash
          ([Event.writeTemp, Event.rollbackAdd bp, Event.writeBlob bp, Event.removeTemp],
            Except.ok (createBlobRow o.read0Hash compressMethod o.read0Len o.storedLen))
  | Chosen.read_all h contentLen =>
    -- lines 569-575: content already in memory; dedup, then compress it to
    -- the blob path.
    let (dedupEvs, hit) := dedupCheck h o.hashCache1 o.hashCache2
    match hit with
    | some b => (dedupEvs, Except.ok b)
    | none =>
        let bp := getBlobPath h
        (dedupEvs ++ [Event.rollbackAdd bp, Event.writeBlob bp],
          Except.ok (createBlobRow h compressMethod contentLen o.storedLen))
  | Chosen.defaultWith h nextRead =>
    -- lines 576-590: dedup, then either a COW fast copy verified by
    -- re-hashing the blob file, or a stream-compress with concurrent
    -- hashing, each followed by `check_changes`.
    let (dedupEvs, hit) := dedupCheck h o.hashCache1 o.hashCache2
    match hit with
    | some b => (dedupEvs, Except.ok b)
    | none =>
        let bp := getBlobPath h
        if !o.srcExists then
          (dedupEvs ++ [Event.rollbackAdd bp], Except.error AErr.sourceFileNotFound)
        else
          let newLen := readLenAt o nextRead
          let newHash := readHashAt o nextRead
          if canCow cfg st && decide (compressMethod = CompressMethod.plain) then
            match checkChanges st.size (some h) newLen (some newHash) with
            | Except.error e =>
                (dedupEvs ++ [Event.rollbackAdd bp, Event.writeBlob bp], Except.error e)
            | Except.ok _ =>
                (dedupEvs ++ [Event.rollbackAdd bp, Event.writeBlob bp],
                  Except.ok (createBlobRow h compressMethod newLen newLen))
          else
            match checkChanges st.size (some h) newLen (some newHash) with
            | Except.error e =>
                (dedupEvs ++ [Event.rollbackAdd bp, Event.writeBlob bp], Except.error e)
            | Except.ok _ =>
                (dedupEvs ++ [Event.rollbackAdd bp, Event.writeBlob bp],
                  Except.ok (createBlobRow h compressMethod newLen o.storedLen))

/-- One full `attempt_once` run (lines 440-603): policy selection followed
by the dedup-and-write phase. -/
def attemptOnce (cfg : Cfg) (lastChance : Bool) (st : Stat) (o : AttemptOracle) :
    List Event × Except AErr Blob :=
  match attemptSelect cfg lastChance st o with
  | (evs, Except.error e) => (evs, Except.error e)
  | (evs, Except.ok sel) =>
      let fin := attemptFinish cfg st o sel
      (evs ++ fin.1, fin.2)

/-- Exceptions that can escape `__get_or_create_blob` (lines 605-631):
`VolatileBlobFile` after the retry loop ends; a plain `FileNotFoundError`
from the bare `src_path.lstat()` re-stat at line 625 (deliberately not
wrapped as `_SourceFileNotFound`); and a propagated `_SourceFileNotFound`
from inside an attempt. -/
inductive RunErr
  | volatileBlobFile
  | fileNotFoundPlain
  | sourceFileNotFound
deriving DecidableEq

/-- The retry loop of `__get_or_create_blob` (lines 605-631), unrolled on
the remaining attempt count.  `i` is the 0-based attempt index; the
attempt with `retry_cnt == _BLOB_FILE_CHANGED_RETRY_COUNT` runs with
`last_chance=True`.  On `_BlobFileChanged` the source is re-stat'ed with a
bare `lstat` (`restat i`; `none` models `FileNotFoundError`) and the loop
continues; any other attempt exception is re-raised; when the loop ends,
`VolatileBlobFile` is raised. -/
def retryGo (cfg : Cfg) (oracles : Nat → AttemptOracle) (restat : Nat → Option Stat) :
    Nat → Nat → Stat → List Event × Except RunErr (Blob × Stat)
  | 0, _, _ => ([], Except.error RunErr.volatileBlobFile)
  | rem + 1, i, st =>
    let lastChance := rem == 0
    let att := attemptOnce cfg lastChance st (oracles i)
    let evs := Event.attemptStart i lastChance :: att.1
    match att.2 with
    | Except.ok blob => (evs, Except.ok (blob, st))
    | Except.error AErr.sourceFileNotFound => (evs, Except.error RunErr.sourceFileNotFound)
    | Except.error AErr.blobFileChanged =>
      match restat i with
      | none => (evs, Except.error RunErr.fileNotFoundPlain)
      | some stNew =>
        let rest := retryGo cfg oracles restat rem (i + 1) stNew
        (evs ++ rest.1, rest.2)

/-- `__get_or_create_blob` entry point: three attempts starting from the
first-observed stat. -/
def getOrCreateBlob (cfg : Cfg) (oracles : Nat → AttemptOracle) (restat : Nat → Option Stat)
    (st0 : Stat) : List Event × Except RunErr (Blob × Stat) :=
  retryGo cfg oracles restat BLOB_FILE_CHANGED_RETRY_COUNT 0 st0

/-- Number of attempts a trace records. -/
def attemptCountOf (evs : List Event) : Nat :=
  (evs.filter fun e =>
    match e with
    | Event.attemptStart _ _ => true
    | _ => false).length

/-- The blob paths a trace writes. -/
def writtenBlobPaths (evs : List Event) : List String :=
  evs.filterMap fun e =>
    match e with
    | Event.writeBlob p => some p
    | _ => none

/-- Number of blob-file writes a trace records. -/
def writeBlobCountOf (evs : List Event) : Nat :=
  (writtenBlobPaths evs).length

/-- The rollback-list appends of a trace, in order. -/
def rollbackAddsOf (evs : List Event) : List String :=
  evs.filterMap fun e =>
    match e with
    | Event.rollbackAdd p => some p
    | _ => none

/-- Number of rollback-list appends a trace records. -/
def rollbackAddCountOf (evs : List Event) : Nat :=
  (rollbackAddsOf evs).length

/-- Checks that every `writeBlob p` in the trace is preceded by a
`rollbackAdd p`; `seen` accumulates the rollback paths added so far. -/
def writesCoveredAux (seen : List String) : List Event → Bool
  | [] => true
  | Event.rollbackAdd p :: rest => writesCoveredAux (p :: seen) rest
  | Event.writeBlob p :: rest => seen.contains p && writesCoveredAux seen rest
  | _ :: rest => writesCoveredAux seen rest

/-- On-disk blob files plus the coordinator's append-only rollback list
(`_add_remove_file_rollbacker` side of the base class). -/
structure DiskState where
  disk : List String
  rollback : List String

/-- Effect of one trace event on the disk and the rollback list. -/
def applyEvent (d : DiskState) : Event → DiskState
  | Event.writeBlob p =>
      { d with disk := if d.disk.contains p then d.disk else d.disk ++ [p] }
  | Event.rollbackAdd p => { d with rollback := d.rollback ++ [p] }
  | _ => d

/-- Effect of a whole trace. -/
def applyEvents (evs : List Event) (d : DiskState) : DiskState :=
  evs.foldl applyEvent d

/-- Modelled from the spec: `_apply_blob_rollback` of the base class is not
under `src/`; §4.6.8 says that on any exception escaping the coordinator
each path in the rollback list is removed from disk before the exception
propagates (`run`, lines 784-786, calls it from its `except` clause).
Returns the disk contents after the removal. -/
def applyBlobRollback (d : DiskState) : List String :=
  d.disk.filter fun p => !d.rollback.contains p

/-- Disk contents after a run that aborted with trace `evs`, starting from
`d0`. -/
def abortedRunDisk (evs : List Event) (d0 : DiskState) : List String :=
  applyBlobRollback (applyEvents evs d0)

/-- The handler of the coordinator main loop (lines 749-753): only
`_SourceFileNotFound` is caught, and it is suppressed exactly when
`should_skip_missing_source_file` matches; every other exception
(including a plain `FileNotFoundError` from the retry re-stat) propagates.
Returns `none` when the error is suppressed. -/
def handleCreateFileError (shouldSkip : Bool) : RunErr → Option RunErr
  | RunErr.sourceFileNotFound =>
      if shouldSkip then none else some RunErr.sourceFileNotFound
  | e => some e

/-- `mtime` stored by `__create_file` (line 682): `st.st_mtime_ns // 1000`.
Python `//` on ints is floor division, embedded as `Int.fdiv`. -/
def createFileMtime (mtimeNs : Int) : Int :=
  Int.fdiv mtimeNs 1000

/-- `mtime_us` of the reuse detector's `StatKey` (line 390):
`file_entry.stat.st_mtime_ns // 1000`, the same floor division. -/
def reuseKeyMtime (mtimeNs : Int) : Int :=
  Int.fdiv mtimeNs 1000

/-- Truncating (round-toward-zero) division by 1000, the operation the
spec's words "truncating division" denote; to be compared with the floor
division the code performs. -/
def truncatedMtime (mtimeNs : Int) : Int :=
  Int.tdiv mtimeNs 1000

/-- State of one batch fetcher (`BatchFetcherBase` plus the pending lists
of `BlobBySizeFetcher` / `BlobByHashFetcher`, lines 99-195): the ordered
pending `(key, callback)` list, the distinct-key set (kept as an
insertion-ordered list), `first_task_scheduled_time`, and
`max_batch_size` (default 100).  Keys are `κ`, callbacks are `τ`; times
are integer milliseconds. -/
structure FetcherState (κ τ : Type) where
  tasks : List (κ × τ)
  keys : List κ
  firstTaskScheduledTime : ℤ
  maxBatchSize : Nat

/-- Set-insert into the insertion-ordered distinct-key list. -/
def insertKey {κ : Type} [BEq κ] (k : κ) (ks : List κ) : List κ :=
  if ks.contains k then ks else ks ++ [k]

/-- `_batch_run` (lines 151-159 / 186-195): issue one batched query over
the distinct keys, then invoke the callbacks in REVERSE order of enqueue,
then clear the pending list and the key set.  Returns the cleared state,
the callbacks in invocation order, and the batched keys. -/
def batchRun {κ τ : Type} (f : FetcherState κ τ) :
    FetcherState κ τ × List (κ × τ) × List κ :=
  ({ f with tasks := [], keys := [] }, f.tasks.reverse, f.keys)

/-- `flush_if_needed` (lines 115-117): run the batch iff there is at least
one pending task and (the pending count reached `max_batch_size` or at
least 0.1 s = 100 ms elapsed since the first task of the current batch
was queued). -/
def flushIfNeeded {κ τ : Type} (now : ℤ) (f : FetcherState κ τ) :
    FetcherState κ τ × Option (List (κ × τ) × List κ) :=
  if 0 < f.tasks.length
      ∧ (f.maxBatchSize ≤ f.tasks.length ∨ (100 : ℤ) ≤ now - f.firstTaskScheduledTime) then
    let b := batchRun f
    (b.1, some b.2)
  else (f, none)

/-- `flush` (lines 119-121): run the batch iff any task is pending. -/
def flushFetcher {κ τ : Type} (f : FetcherState κ τ) :
    FetcherState κ τ × Option (List (κ × τ) × List κ) :=
  if 0 < f.tasks.length then
    let b := batchRun f
    (b.1, some b.2)
  else (f, none)

/-- `query` plus `_post_query` (lines 109-113, 146-149 / 181-184): append
the task, record the key, stamp `first_task_scheduled_time` when this task
is the only pending one, then `flush_if_needed`. -/
def queryFetcher {κ τ : Type} [BEq κ] (now : ℤ) (k : κ) (cb : τ) (f : FetcherState κ τ) :
    FetcherState κ τ × Option (List (κ × τ) × List κ) :=
  let f1 := { f with tasks := f.tasks ++ [(k, cb)], keys := insertKey k f.keys }
  let f2 := if f1.tasks.length == 1 then { f1 with firstTaskScheduledTime := now } else f1
  flushIfNeeded now f2

/-- A BQM request as yielded by an ingest task (`BqmReq`, line 198), with
keys abstracted to `Nat`. -/
inductive SchedReq
  | size (key : Nat)
  | hash (key : Nat)

/-- A BQM response (`BqmRsp`, line 199): the size-existence bit or whether
a Blob row was found. -/
inductive SchedRsp
  | sizeRsp (exist : Bool)
  | hashRsp (found : Bool)

/-- A resumable per-file ingest task as the coordinator sees it
(`__create_file` generators): it either completes with a File row
(identified here by the scanner position `fid`) or suspends on a BQM
request with a continuation. -/
inductive Gen
  | done (fid : Nat)
  | ask (req : SchedReq) (k : SchedRsp → Gen)

/-- The coordinator scheduling state (`__create_backup`, lines 734-757):
the FIFO deque of in-flight tasks (front at the head; a suspended task is
stored resumed-with-its-response, which is observationally the deferred
`gen.send(value)`), the two fetchers with `Gen`-continuation callbacks,
and the File rows appended so far. -/
structure SchedState where
  queue : List Gen
  sizeF : FetcherState Nat (SchedRsp → Gen)
  hashF : FetcherState Nat (SchedRsp → Gen)
  files : List Nat

/-- Invoking a batch's callbacks: each callback prepends the resumed task
to the deque front (`schedule_queue.appendleft`, line 743); `cbs` is the
callback list already in invocation (reverse-enqueue) order. -/
def applyCallbacks (ans : Nat → SchedRsp) (cbs : List (Nat × (SchedRsp → Gen)))
    (queue : List Gen) : List Gen :=
  cbs.foldl (fun q kc => kc.2 (ans kc.1) :: q) queue

/-- Feed a fetcher result (if a batch ran) into the deque. -/
def applyFlushResult (ans : Nat → SchedRsp)
    (out : Option (List (Nat × (SchedRsp → Gen)) × List Nat))
    (queue : List Gen) : List Gen :=
  match out with
  | none => queue
  | some (cbs, _) => applyCallbacks ans cbs queue

/-- One iteration of the coordinator main loop (lines 739-757): pop the
deque front; a completed task appends its File row to `files`, a suspended
task enqueues on the matching fetcher (which may flush immediately); then
`flush_if_needed` on both fetchers; then, if the deque is empty, `flush`
both fetchers (size first, then hash, as `BatchQueryManager.flush` does).
`now` is the `time.time()` value of this iteration. -/
def schedStep (now : ℤ) (sizeAns hashAns : Nat → Bool) (s : SchedState) : SchedState :=
  match s.queue with
  | [] => s
  | g :: rest =>
    let sAns := fun key => SchedRsp.sizeRsp (sizeAns key)
    let hAns := fun key => SchedRsp.hashRsp (hashAns key)
    let s1 : SchedState :=
      match g with
      | Gen.done fid =>
          { s with queue := rest, files := s.files ++ [fid] }
      | Gen.ask (SchedReq.size key) k =>
          let q := queryFetcher now key k s.sizeF
          { s with queue := applyFlushResult sAns q.2 rest, sizeF := q.1 }
      | Gen.ask (SchedReq.hash key) k =>
          let q := queryFetcher now key k s.hashF
          { s with queue := applyFlushResult hAns q.2 rest, hashF := q.1 }
    let fs := flushIfNeeded now s1.sizeF
    let s2 : SchedState :=
      { s1 with sizeF := fs.1, queue := applyFlushResult sAns fs.2 s1.queue }
    let fh := flushIfNeeded now s2.hashF
    let s3 : SchedState :=
      { s2 with hashF := fh.1, queue := applyFlushResult hAns fh.2 s2.queue }
    if s3.queue.isEmpty then
      let ffs := flushFetcher s3.sizeF
      let s4 : SchedState :=
        { s3 with sizeF := ffs.1, queue := applyFlushResult sAns ffs.2 s3.queue }
      let ffh := flushFetcher s4.hashF
      { s4 with hashF := ffh.1, queue := applyFlushResult hAns ffh.2 s4.queue }
    else s3

/-- Run the coordinator loop until the deque drains (with fuel; the Python
loop is `while len(schedule_queue) > 0`).  Time is frozen at `now`,
modelling an execution faster than the 0.1 s batching window. -/
def schedRun (fuel : Nat) (now : ℤ) (sizeAns hashAns : Nat → Bool)
    (s : SchedState) : SchedState :=
  match fuel with
  | 0 => s
  | fuel + 1 =>
    match s.queue with
    | [] => s
    | _ :: _ => schedRun fuel now sizeAns hashAns (schedStep now sizeAns hashAns s)

/-- An empty fetcher with the default `max_batch_size = 100` (line 203). -/
def emptyFetcher (τ : Type) : FetcherState Nat τ :=
  ⟨[], [], 0, 100⟩

/-- The initial scheduling state for a scanner emission order
`g₀, …, g_{n-1}` (lines 736-738: one `__create_file` generator per scan
entry, appended in scanner order). -/
def initSched (gens : List Gen) : SchedState :=
  ⟨gens, emptyFetcher _, emptyFetcher _, []⟩

/-- The oracle a non-reused empty regular file presents to an attempt in a
run whose catalog holds no zero-byte blob: no pre-computed hash, the
source readable with 0 bytes and hash `h0`, size-existence unknown and
answered `false`, and both hash-cache reads returning the current
coordinator cache entry for `h0` (the hash batch adds nothing, because the
catalog has no row for `h0`). -/
def emptyFileOracle (h0 : String) (cached : Option Blob) : AttemptOracle :=
  { preCalcHash := none
    srcExists := true
    read0Len := 0
    read0Hash := h0
    read1Len := 0
    read1Hash := h0
    storedLen := 0
    sizeCacheAtCheck := none
    sizeAnswer := false
    hashCache1 := cached
    hashCache2 := cached }

/-- Sequential ingestion of `n` empty files on the coordinator thread,
threading the `__blob_by_hash_cache` entry for `h0` through the attempts:
after a successful attempt the returned Blob row is cached (line 619), so
later empty files see it. -/
def emptyFilesRun (cfg : Cfg) (st : Stat) (h0 : String) :
    Nat → Option Blob → List Event
  | 0, _ => []
  | n + 1, cached =>
    let att := attemptOnce cfg false st (emptyFileOracle h0 cached)
    let cachedNew :=
      match att.2 with
      | Except.ok b => some b
      | Except.error _ => cached
    att.1 ++ emptyFilesRun cfg st h0 n cachedNew

/-- A configuration with no COW support, `plain` compression for every
size. -/
def cfgNoCow : Cfg := ⟨false, false, 0, fun _ => CompressMethod.plain⟩

/-- A Blob row for hash `"ha"`. -/
def blobHa : Blob := ⟨"ha", CompressMethod.plain, 100, 50⟩

/-- An oracle for a 100-byte file of hash `"ha"` whose Blob row is already
in `__blob_by_hash_cache`. -/
def oracleCachedHit : AttemptOracle :=
  ⟨none, true, 100, "ha", 100, "ha", 50, none, false, some blobHa, none⟩

/-- The three possible attempt outcomes of `__get_or_create_blob`, each
required to be `_BlobFileChanged`, with the re-stat after each one
succeeding (including the one after the final attempt, line 625); this is
exactly the situation in which the loop falls through to
`VolatileBlobFile`. -/
def allThreeBlobFileChanged (cfg : Cfg) (oracles : Nat → AttemptOracle)
    (restat : Nat → Option Stat) (st0 : Stat) : Prop :=
  (attemptOnce cfg false st0 (oracles 0)).2 = Except.error AErr.blobFileChanged
  ∧ match restat 0 with
    | none => False
    | some st1 =>
      (attemptOnce cfg false st1 (oracles 1)).2 = Except.error AErr.blobFileChanged
      ∧ match restat 1 with
        | none => False
        | some st2 =>
          (attemptOnce cfg true st2 (oracles 2)).2 = Except.error AErr.blobFileChanged
          ∧ restat 2 ≠ none

/-- An oracle for a file stat'ed at 100 bytes that yields 9000 bytes when
read: the `read_all` attempt on it raises `_BlobFileChanged`. -/
def oracleGrown : AttemptOracle :=
  ⟨none, true, 9000, "h9", 9000, "h9", 9000, none, false, none, none⟩

/-- Scanner emission order for the counterexample: file 0 suspends once
on a hash-batch request, then completes; file 1 (say, a directory)
completes without suspending. -/
def genSuspending : Gen := Gen.ask (SchedReq.hash 7) (fun _ => Gen.done 0)

/-- The coordinator run on scanner order `[0, 1]`. -/
def counterexampleRun : SchedState :=
  schedRun 5 0 (fun _ => false) (fun _ => false)
    (initSched [genSuspending, Gen.done 1])

/-- A configuration where the COW fast-copy predicate holds for every
file on device 0: `copy_file_range` available, `plain` compression for
every size, blob store on a COW filesystem at device 0. -/
def cfgCow : Cfg := ⟨true, true, 0, fun _ => CompressMethod.plain⟩

/-! ## Theorems -/

/-- C1: For every non-reused regular file ingested, the blob-creation
policy chosen by a single attempt matches the decision table of §4.6.3
exactly: on the final retry attempt the policy is `copy_hash`; otherwise a
pre-computed fingerprint gives `default`; otherwise `¬can_cow` with size
at most 8 KiB gives `read_all`; otherwise `¬can_cow`, size above 10 MiB
and no blob of that size (possibly established via a size lookup) gives
`hash_once`; every remaining case gives `default`. -/
theorem policy_matches_decision_table (cfg : Cfg) (lastChance : Bool) (st : Stat)
    (o : AttemptOracle) :
    attemptPolicyOf (attemptOnce cfg lastChance st o).1
      = some (specPolicyTable lastChance o.preCalcHash (canCow cfg st) st.size
          (resolvedSizeExists o)) := by
  cases lastChance with
  | true =>
      simp [attemptOnce, attemptSelect, specPolicyTable, attemptPolicyOf, attemptFinish]
  | false =>
      cases hpc : o.preCalcHash with
      | some h =>
          simp [attemptOnce, attemptSelect, specPolicyTable, attemptPolicyOf, hpc,
            attemptFinish, dedupCheck]
      | none =>
          by_cases hcw : canCow cfg st = true <;>
            by_cases hsmall : st.size ≤ READ_ALL_SIZE_THRESHOLD <;>
            by_cases hbig : HASH_ONCE_SIZE_THRESHOLD < st.size <;>
            cases hse : o.srcExists <;>
            cases hsc : o.sizeCacheAtCheck <;>
            cases hsa : o.sizeAnswer <;>
            by_cases hlen : READ_ALL_SIZE_THRESHOLD < min o.read0Len (READ_ALL_SIZE_THRESHOLD + 1) <;>
          first
          | (simp [attemptOnce, attemptSelect, specPolicyTable, attemptPolicyOf, hpc, hcw,
              hsmall, hbig, hse, hsc, hsa, hlen, attemptFinish, dedupCheck, resolvedSizeExists];
             done)
          | (rename_i ex; cases ex <;>
              simp [attemptOnce, attemptSelect, specPolicyTable, attemptPolicyOf, hpc, hcw,
                hsmall, hbig, hse, hsc, hsa, hlen, attemptFinish, dedupCheck, resolvedSizeExists];
             done)

theorem writeBlobCountOf_append (l1 l2 : List Event) :
    writeBlobCountOf (l1 ++ l2) = writeBlobCountOf l1 + writeBlobCountOf l2 := by
  simp [writeBlobCountOf, writtenBlobPaths]

theorem rollbackAddCountOf_append (l1 l2 : List Event) :
    rollbackAddCountOf (l1 ++ l2) = rollbackAddCountOf l1 + rollbackAddCountOf l2 := by
  simp [rollbackAddCountOf, rollbackAddsOf]

set_option maxHeartbeats 2000000 in
/-- The policy-selection phase performs no dedup check, no hash-batch
yield, no blob write and no rollback-list append: those all live in the
dedup-and-write phase. -/
theorem attemptSelect_events_shape (cfg : Cfg) (lastChance : Bool) (st : Stat)
    (o : AttemptOracle) (h : String) :
    Event.hashKnown h ∉ (attemptSelect cfg lastChance st o).1
    ∧ Event.hashReq h ∉ (attemptSelect cfg lastChance st o).1
    ∧ writeBlobCountOf (attemptSelect cfg lastChance st o).1 = 0
    ∧ rollbackAddCountOf (attemptSelect cfg lastChance st o).1 = 0
    ∧ ∀ i b, Event.attemptStart i b ∉ (attemptSelect cfg lastChance st o).1 := by
  cases lastChance <;>
    cases hpc : o.preCalcHash <;>
    by_cases hcw : canCow cfg st = true <;>
    by_cases hsmall : st.size ≤ READ_ALL_SIZE_THRESHOLD <;>
    by_cases hbig : HASH_ONCE_SIZE_THRESHOLD < st.size <;>
    cases hse : o.srcExists <;>
    cases hsc : o.sizeCacheAtCheck <;>
    cases hsa : o.sizeAnswer <;>
    by_cases hlen : READ_ALL_SIZE_THRESHOLD < min o.read0Len (READ_ALL_SIZE_THRESHOLD + 1) <;>
  first
  | (simp [attemptSelect, hpc, hcw, hsmall, hbig, hse, hsc, hsa, hlen,
      writeBlobCountOf, writtenBlobPaths, rollbackAddCountOf, rollbackAddsOf];
     done)
  | (rename_i ex; cases ex <;>
      simp [attemptSelect, hpc, hcw, hsmall, hbig, hse, hsc, hsa, hlen,
        writeBlobCountOf, writtenBlobPaths, rollbackAddCountOf, rollbackAddsOf];
     done)

/-- C9: Under the `read_all` policy the attempt reads at most
`_READ_ALL_SIZE_THRESHOLD + 1` bytes from the source; if more than
`_READ_ALL_SIZE_THRESHOLD` bytes come back (the file grew past the
threshold after its stat), the attempt raises `_BlobFileChanged` instead
of storing a blob: no blob file is written and nothing is added to the
rollback list. -/
theorem read_all_bounded_read_detects_growth (cfg : Cfg) (st : Stat) (o : AttemptOracle)
    (hcw : canCow cfg st = false) (hsz : st.size ≤ READ_ALL_SIZE_THRESHOLD)
    (hpc : o.preCalcHash = none) (hex : o.srcExists = true)
    (hgrow : READ_ALL_SIZE_THRESHOLD < o.read0Len) :
    min o.read0Len (READ_ALL_SIZE_THRESHOLD + 1) ≤ READ_ALL_SIZE_THRESHOLD + 1
    ∧ attemptPolicyOf (attemptOnce cfg false st o).1 = some BlobCreatePolicy.read_all
    ∧ (attemptOnce cfg false st o).2 = Except.error AErr.blobFileChanged
    ∧ writeBlobCountOf (attemptOnce cfg false st o).1 = 0
    ∧ rollbackAddCountOf (attemptOnce cfg false st o).1 = 0 := by
  have hlen : READ_ALL_SIZE_THRESHOLD < min o.read0Len (READ_ALL_SIZE_THRESHOLD + 1) := by
    omega
  refine ⟨by omega, ?_, ?_, ?_, ?_⟩ <;>
    simp [attemptOnce, attemptSelect, hpc, hcw, hsz, hex, hlen, attemptPolicyOf,
      writeBlobCountOf, writtenBlobPaths, rollbackAddCountOf, rollbackAddsOf]

/-- Witness for the read-all growth theorem at a concrete input: a file
stat'ed at 100 bytes that yields 9000 bytes when read. -/
theorem read_all_bounded_read_detects_growth_witness :
    (canCow ⟨false, false, 0, fun _ => CompressMethod.plain⟩ ⟨100, 0⟩ = false
      ∧ (100 : Nat) ≤ READ_ALL_SIZE_THRESHOLD
      ∧ READ_ALL_SIZE_THRESHOLD < (9000 : Nat))
    ∧ ((attemptOnce ⟨false, false, 0, fun _ => CompressMethod.plain⟩ false ⟨100, 0⟩
        ⟨none, true, 9000, "h9", 9000, "h9", 9000, none, false, none, none⟩).2
          = Except.error AErr.blobFileChanged) := by
  refine ⟨⟨by decide, by decide, by decide⟩, ?_⟩
  exact (read_all_bounded_read_detects_growth
    ⟨false, false, 0, fun _ => CompressMethod.plain⟩ ⟨100, 0⟩
    ⟨none, true, 9000, "h9", 9000, "h9", 9000, none, false, none, none⟩
    (by decide) (by decide) rfl rfl (by decide)).2.2.1

/-- C5: Whenever an attempt knows the blob fingerprint before writing
(the trace shows the dedup re-check running with hash `h`), it first
consults the `blob_by_hash` cache; on a miss it suspends with a hash-batch
request and re-checks the cache on resume; if a Blob row is found by
either check, the attempt returns that row without writing any blob file
and without adding any path to the rollback list. -/
theorem dedup_short_circuit (cfg : Cfg) (lastChance : Bool) (st : Stat) (o : AttemptOracle)
    (h : String)
    (hmem : Event.hashKnown h ∈ (attemptOnce cfg lastChance st o).1) :
    (∀ b, o.hashCache1 = some b →
        (attemptOnce cfg lastChance st o).2 = Except.ok b
        ∧ writeBlobCountOf (attemptOnce cfg lastChance st o).1 = 0
        ∧ rollbackAddCountOf (attemptOnce cfg lastChance st o).1 = 0)
    ∧ (o.hashCache1 = none →
        Event.hashReq h ∈ (attemptOnce cfg lastChance st o).1
        ∧ ∀ b, o.hashCache2 = some b →
            (attemptOnce cfg lastChance st o).2 = Except.ok b
            ∧ writeBlobCountOf (attemptOnce cfg lastChance st o).1 = 0
            ∧ rollbackAddCountOf (attemptOnce cfg lastChance st o).1 = 0) := by
  have hshape := attemptSelect_events_shape cfg lastChance st o h
  have hshapeReq := fun h2 => (attemptSelect_events_shape cfg lastChance st o h2).2.1
  rcases hs : attemptSelect cfg lastChance st o with ⟨evs, r⟩
  rw [hs] at hshape
  replace hshapeReq := fun h2 => by simpa [hs] using hshapeReq h2
  simp only [attemptOnce, hs] at hmem ⊢
  cases r with
  | error e =>
      exact absurd hmem hshape.1
  | ok sel =>
      simp only [List.mem_append] at hmem
      rcases hmem with hmem | hmem
      · exact absurd hmem hshape.1
      · cases sel with
        | read_all hh clen =>
            cases hc1 : o.hashCache1 <;> cases hc2 : o.hashCache2 <;>
              simp_all [attemptFinish, dedupCheck, writeBlobCountOf_append,
                rollbackAddCountOf_append, writeBlobCountOf, writtenBlobPaths,
                rollbackAddCountOf, rollbackAddsOf]
        | hash_once =>
            cases hse : o.srcExists <;>
              cases hcc : checkChanges st.size none o.read0Len none <;>
              simp_all [attemptFinish, dedupCheck]
        | copy_hash =>
            cases hse : o.srcExists <;> cases hc1 : o.hashCache1 <;> cases hc2 : o.hashCache2 <;>
              simp_all [attemptFinish, dedupCheck, writeBlobCountOf_append,
                rollbackAddCountOf_append, writeBlobCountOf, writtenBlobPaths,
                rollbackAddCountOf, rollbackAddsOf]
        | defaultWith hh nr =>
            cases hc1 : o.hashCache1 <;> cases hc2 : o.hashCache2 <;>
              cases hse : o.srcExists <;>
              cases hcc : checkChanges st.size (some hh) (readLenAt o nr) (some (readHashAt o nr)) <;>
              by_cases hcw : canCow cfg st = true ∧ cfg.compressFromSize st.size = CompressMethod.plain <;>
              simp_all [attemptFinish, dedupCheck, writeBlobCountOf_append,
                rollbackAddCountOf_append, writeBlobCountOf, writtenBlobPaths,
                rollbackAddCountOf, rollbackAddsOf] <;>
              (try (split <;> simp))

/-- Witness for the dedup short-circuit theorem at a concrete input: a
100-byte file whose fingerprint is already cached; the attempt returns
the cached row, writes no blob file and adds nothing to the rollback
list. -/
theorem dedup_short_circuit_witness :
    Event.hashKnown "ha" ∈ (attemptOnce cfgNoCow false ⟨100, 0⟩ oracleCachedHit).1
    ∧ ((attemptOnce cfgNoCow false ⟨100, 0⟩ oracleCachedHit).2 = Except.ok blobHa
      ∧ writeBlobCountOf (attemptOnce cfgNoCow false ⟨100, 0⟩ oracleCachedHit).1 = 0
      ∧ rollbackAddCountOf (attemptOnce cfgNoCow false ⟨100, 0⟩ oracleCachedHit).1 = 0) := by
  refine ⟨by decide, ?_⟩
  exact (dedup_short_circuit cfgNoCow false ⟨100, 0⟩ oracleCachedHit "ha" (by decide)).1
    blobHa rfl

theorem writesCoveredAux_append (seen : List String) (l1 l2 : List Event) :
    writesCoveredAux seen (l1 ++ l2)
      = (writesCoveredAux seen l1
          && writesCoveredAux ((rollbackAddsOf l1).reverse ++ seen) l2) := by
  induction l1 generalizing seen with
  | nil => simp [writesCoveredAux, rollbackAddsOf]
  | cons e rest ih =>
      cases e <;> simp [writesCoveredAux, rollbackAddsOf, ih, Bool.and_assoc]

theorem writesCoveredAux_of_no_write (seen : List String) (l : List Event)
    (hw : writeBlobCountOf l = 0) : writesCoveredAux seen l = true := by
  induction l generalizing seen with
  | nil => simp [writesCoveredAux]
  | cons e rest ih =>
      have hsplit : writeBlobCountOf [e] + writeBlobCountOf rest = 0 := by
        have : e :: rest = [e] ++ rest := rfl
        rw [this, writeBlobCountOf_append] at hw
        exact hw
      cases e <;> simp only [writesCoveredAux] <;>
        first
        | exact ih _ (by omega)
        | (exfalso
           simp [writeBlobCountOf, writtenBlobPaths] at hsplit)

/-- Every blob-file write of a single attempt is preceded, within that
same attempt, by the `bp_rba` rollback-list append of the same path. -/
theorem attempt_writes_covered (cfg : Cfg) (lastChance : Bool) (st : Stat)
    (o : AttemptOracle) (seen : List String) :
    writesCoveredAux seen (attemptOnce cfg lastChance st o).1 = true := by
  rcases hs : attemptSelect cfg lastChance st o with ⟨evs, r⟩
  have hshape := attemptSelect_events_shape cfg lastChance st o ""
  rw [hs] at hshape
  have hselCov : ∀ s : List String, writesCoveredAux s evs = true :=
    fun s => writesCoveredAux_of_no_write s evs hshape.2.2.1
  simp only [attemptOnce, hs]
  cases r with
  | error e => exact hselCov seen
  | ok sel =>
      rw [writesCoveredAux_append]
      refine (Bool.and_eq_true _ _).mpr ⟨hselCov seen, ?_⟩
      cases sel with
      | read_all hh clen =>
          cases hc1 : o.hashCache1 <;> cases hc2 : o.hashCache2 <;>
            simp [attemptFinish, dedupCheck, writesCoveredAux, hc1, hc2]
      | hash_once =>
          cases hse : o.srcExists <;>
            cases hcc : checkChanges st.size none o.read0Len none <;>
            simp [attemptFinish, dedupCheck, writesCoveredAux, hse, hcc]
      | copy_hash =>
          cases hse : o.srcExists <;> cases hc1 : o.hashCache1 <;> cases hc2 : o.hashCache2 <;>
            simp [attemptFinish, dedupCheck, writesCoveredAux, hse, hc1, hc2]
      | defaultWith hh nr =>
          cases hc1 : o.hashCache1 <;> cases hc2 : o.hashCache2 <;>
            cases hse : o.srcExists <;>
            cases hcc : checkChanges st.size (some hh) (readLenAt o nr) (some (readHashAt o nr)) <;>
            by_cases hcw : canCow cfg st = true ∧ cfg.compressFromSize st.size = CompressMethod.plain <;>
            simp [attemptFinish, dedupCheck, writesCoveredAux, hse, hc1, hc2, hcc, hcw]

/-- The whole retry loop also satisfies the coverage property: its trace
is the concatenation of covered attempt traces. -/
theorem retryGo_writes_covered (cfg : Cfg) (oracles : Nat → AttemptOracle)
    (restat : Nat → Option Stat) (rem i : Nat) (st : Stat) (seen : List String) :
    writesCoveredAux seen (retryGo cfg oracles restat rem i st).1 = true := by
  induction rem generalizing i st seen with
  | zero => simp [retryGo, writesCoveredAux]
  | succ rem ih =>
      simp only [retryGo]
      rcases ha : attemptOnce cfg (rem == 0) st (oracles i) with ⟨evs, r⟩
      have hcov : ∀ s : List String, writesCoveredAux s evs = true := by
        intro s
        have := attempt_writes_covered cfg (rem == 0) st (oracles i) s
        rw [ha] at this
        exact this
      cases r with
      | ok blob => simpa [writesCoveredAux] using hcov seen
      | error e =>
          cases e with
          | sourceFileNotFound => simpa [writesCoveredAux] using hcov seen
          | blobFileChanged =>
              cases hrs : restat i with
              | none => simpa [writesCoveredAux] using hcov seen
              | some stNew =>
                  have hpeel : writesCoveredAux seen
                        ((Event.attemptStart i (rem == 0) :: evs)
                          ++ (retryGo cfg oracles restat rem (i + 1) stNew).1)
                      = writesCoveredAux seen
                          (evs ++ (retryGo cfg oracles restat rem (i + 1) stNew).1) := rfl
                  rw [hpeel, writesCoveredAux_append]
                  simp [hcov, ih]

theorem applyEvents_rollback (l : List Event) (d : DiskState) :
    (applyEvents l d).rollback = d.rollback ++ rollbackAddsOf l := by
  induction l generalizing d with
  | nil => simp [applyEvents, rollbackAddsOf]
  | cons e rest ih =>
      have step : applyEvents (e :: rest) d = applyEvents rest (applyEvent d e) := rfl
      rw [step, ih]
      cases e <;>
        first
        | (simp [applyEvent, rollbackAddsOf]; done)
        | (simp only [applyEvent]; split <;> simp [rollbackAddsOf])

theorem applyEvents_disk_mem (l : List Event) (d : DiskState) (p : String)
    (hp : p ∈ (applyEvents l d).disk) : p ∈ d.disk ∨ p ∈ writtenBlobPaths l := by
  induction l generalizing d with
  | nil => exact Or.inl (by simpa [applyEvents] using hp)
  | cons e rest ih =>
      have step : applyEvents (e :: rest) d = applyEvents rest (applyEvent d e) := rfl
      rw [step] at hp
      rcases ih _ hp with h | h
      · cases e <;> simp only [applyEvent] at h <;> try (exact Or.inl h)
        case writeBlob q =>
          by_cases hq : q ∈ d.disk
          · simp [hq] at h
            exact Or.inl h
          · simp [hq, List.mem_append] at h
            rcases h with h | h
            · exact Or.inl h
            · subst h
              exact Or.inr (by simp [writtenBlobPaths])
      · refine Or.inr ?_
        have hw : writtenBlobPaths (e :: rest)
            = (match e with
                | Event.writeBlob q => [q]
                | _ => []) ++ writtenBlobPaths rest := by
          cases e <;> simp [writtenBlobPaths]
        rw [hw]
        exact List.mem_append_right _ h

theorem writesCoveredAux_written_mem (l : List Event) (seen : List String)
    (hcov : writesCoveredAux seen l = true) (p : String) (hp : p ∈ writtenBlobPaths l) :
    p ∈ rollbackAddsOf l ∨ p ∈ seen := by
  induction l generalizing seen with
  | nil => simp [writtenBlobPaths] at hp
  | cons e rest ih =>
      cases e with
      | rollbackAdd q =>
          simp only [writesCoveredAux] at hcov
          have hp2 : p ∈ writtenBlobPaths rest := by
            simpa [writtenBlobPaths] using hp
          rcases ih (q :: seen) hcov hp2 with h | h
          · exact Or.inl (by simpa [rollbackAddsOf] using Or.inr h)
          · rcases List.mem_cons.mp h with h | h
            · exact Or.inl (by simp [rollbackAddsOf, h])
            · exact Or.inr h
      | writeBlob q =>
          simp only [writesCoveredAux, Bool.and_eq_true] at hcov
          have hw : writtenBlobPaths (Event.writeBlob q :: rest) = q :: writtenBlobPaths rest := by
            simp [writtenBlobPaths]
          rw [hw] at hp
          rcases List.mem_cons.mp hp with h | h
          · subst h
            exact Or.inr (by simpa using hcov.1)
          · rcases ih seen hcov.2 (by simpa [writtenBlobPaths] using h) with h2 | h2
            · exact Or.inl (by simpa [rollbackAddsOf] using h2)
            · exact Or.inr h2
      | _ =>
          simp only [writesCoveredAux] at hcov
          first
          | (rcases ih seen hcov (by simpa [writtenBlobPaths] using hp) with h | h
             · exact Or.inl (by simpa [rollbackAddsOf] using h)
             · exact Or.inr h)

/-- C3: for any blob-acquisition run, every blob path is added to the
rollback list before any disk write occurs at that path
(`writesCoveredAux`), and when an exception escapes the run, applying the
rollback (each recorded path removed from disk, the `except` clause of
`run`) leaves no rollback-listed path and hence no blob file created by
this run on disk. -/
theorem rollback_precedes_writes_and_cleans_disk (cfg : Cfg)
    (oracles : Nat → AttemptOracle) (restat : Nat → Option Stat)
    (st0 : Stat) (d0 : DiskState) :
    writesCoveredAux [] (getOrCreateBlob cfg oracles restat st0).1 = true
    ∧ ((applyEvents (getOrCreateBlob cfg oracles restat st0).1 d0).rollback).filter
        (fun p => (abortedRunDisk (getOrCreateBlob cfg oracles restat st0).1 d0).contains p)
        = []
    ∧ (writtenBlobPaths (getOrCreateBlob cfg oracles restat st0).1).filter
        (fun p => (abortedRunDisk (getOrCreateBlob cfg oracles restat st0).1 d0).contains p)
        = [] := by
  have hcov : writesCoveredAux [] (getOrCreateBlob cfg oracles restat st0).1 = true :=
    retryGo_writes_covered cfg oracles restat BLOB_FILE_CHANGED_RETRY_COUNT 0 st0 []
  have hgone : ∀ p, p ∈ (applyEvents (getOrCreateBlob cfg oracles restat st0).1 d0).rollback →
      ¬((abortedRunDisk (getOrCreateBlob cfg oracles restat st0).1 d0).contains p = true) := by
    intro p hp hcontains
    have hmem : p ∈ abortedRunDisk (getOrCreateBlob cfg oracles restat st0).1 d0 := by
      simpa using hcontains
    have := List.mem_filter.mp hmem
    have hnot : (!((applyEvents (getOrCreateBlob cfg oracles restat st0).1 d0).rollback).contains p)
        = true := this.2
    simp at hnot
    exact hnot hp
  refine ⟨hcov, ?_, ?_⟩
  · exact List.filter_eq_nil_iff.mpr fun p hp => hgone p hp
  · refine List.filter_eq_nil_iff.mpr fun p hp => ?_
    have hadd : p ∈ rollbackAddsOf (getOrCreateBlob cfg oracles restat st0).1 := by
      rcases writesCoveredAux_written_mem _ _ hcov p hp with h | h
      · exact h
      · simp at h
    exact hgone p (by rw [applyEvents_rollback]; exact List.mem_append_right _ hadd)

/-- A single attempt never emits an attempt-start marker: markers are
prepended by the retry loop only. -/
theorem attempt_no_marker (cfg : Cfg) (lastChance : Bool) (st : Stat) (o : AttemptOracle)
    (i : Nat) (b : Bool) : Event.attemptStart i b ∉ (attemptOnce cfg lastChance st o).1 := by
  rcases hs : attemptSelect cfg lastChance st o with ⟨evs, r⟩
  have hshape := (attemptSelect_events_shape cfg lastChance st o "").2.2.2.2 i b
  rw [hs] at hshape
  simp only [attemptOnce, hs]
  cases r with
  | error e => exact hshape
  | ok sel =>
      simp only [List.mem_append, not_or]
      refine ⟨hshape, ?_⟩
      cases sel with
      | read_all hh clen =>
          cases hc1 : o.hashCache1 <;> cases hc2 : o.hashCache2 <;>
            simp [attemptFinish, dedupCheck, hc1, hc2]
      | hash_once =>
          cases hse : o.srcExists <;>
            cases hcc : checkChanges st.size none o.read0Len none <;>
            simp [attemptFinish, dedupCheck, hse, hcc]
      | copy_hash =>
          cases hse : o.srcExists <;> cases hc1 : o.hashCache1 <;> cases hc2 : o.hashCache2 <;>
            simp [attemptFinish, dedupCheck, hse, hc1, hc2]
      | defaultWith hh nr =>
          cases hc1 : o.hashCache1 <;> cases hc2 : o.hashCache2 <;>
            cases hse : o.srcExists <;>
            cases hcc : checkChanges st.size (some hh) (readLenAt o nr) (some (readHashAt o nr)) <;>
            by_cases hcw : canCow cfg st = true ∧ cfg.compressFromSize st.size = CompressMethod.plain <;>
            simp [attemptFinish, dedupCheck, hse, hc1, hc2, hcc, hcw]

theorem attemptCountOf_append (l1 l2 : List Event) :
    attemptCountOf (l1 ++ l2) = attemptCountOf l1 + attemptCountOf l2 := by
  simp [attemptCountOf]

theorem attemptCountOf_eq_zero (l : List Event)
    (h : ∀ i b, Event.attemptStart i b ∉ l) : attemptCountOf l = 0 := by
  unfold attemptCountOf
  rw [List.length_eq_zero]
  refine List.filter_eq_nil_iff.mpr fun a ha => ?_
  cases a <;> simp
  case attemptStart j c => exact h j c ha

theorem retryGo_attemptCount (cfg : Cfg) (oracles : Nat → AttemptOracle)
    (restat : Nat → Option Stat) :
    ∀ rem i st, attemptCountOf (retryGo cfg oracles restat rem i st).1 ≤ rem := by
  intro rem
  induction rem with
  | zero => intro i st; simp [retryGo, attemptCountOf]
  | succ rem ih =>
      intro i st
      simp only [retryGo]
      rcases ha : attemptOnce cfg (rem == 0) st (oracles i) with ⟨evs, r⟩
      have hz : attemptCountOf evs = 0 := by
        have h2 := attemptCountOf_eq_zero (attemptOnce cfg (rem == 0) st (oracles i)).1
          (fun j b => attempt_no_marker cfg (rem == 0) st (oracles i) j b)
        rwa [ha] at h2
      have hcons : ∀ l, attemptCountOf (Event.attemptStart i (rem == 0) :: l)
          = 1 + attemptCountOf l := by
        intro l
        have h3 : Event.attemptStart i (rem == 0) :: l
            = [Event.attemptStart i (rem == 0)] ++ l := rfl
        rw [h3, attemptCountOf_append]
        simp [attemptCountOf]
      cases r with
      | ok blob => simp only [hcons, hz]; omega
      | error e =>
          cases e with
          | sourceFileNotFound => simp only [hcons, hz]; omega
          | blobFileChanged =>
              cases hrs : restat i with
              | none => simp only [hcons, hz]; omega
              | some stNew =>
                  have h4 := ih (i + 1) stNew
                  simp only [List.cons_append, hcons, attemptCountOf_append, hz]
                  omega

theorem retryGo_marker_lastChance (cfg : Cfg) (oracles : Nat → AttemptOracle)
    (restat : Nat → Option Stat) :
    ∀ rem i st, i + rem = BLOB_FILE_CHANGED_RETRY_COUNT →
      ∀ j b, Event.attemptStart j b ∈ (retryGo cfg oracles restat rem i st).1 →
        b = (j == 2) := by
  intro rem
  induction rem with
  | zero => intro i st h j b hb; simp [retryGo] at hb
  | succ rem ih =>
      intro i st h j b hb
      simp only [retryGo] at hb
      rcases ha : attemptOnce cfg (rem == 0) st (oracles i) with ⟨evs, r⟩
      rw [ha] at hb
      have hnm : ∀ j2 b2, Event.attemptStart j2 b2 ∉ evs := by
        intro j2 b2
        have h2 := attempt_no_marker cfg (rem == 0) st (oracles i) j2 b2
        rwa [ha] at h2
      have hhead : Event.attemptStart j b = Event.attemptStart i (rem == 0) → b = (j == 2) := by
        intro hb2
        injection hb2 with h1 h2
        rw [h2, h1]
        unfold BLOB_FILE_CHANGED_RETRY_COUNT at h
        by_cases hr : rem = 0
        · have hi : i = 2 := by omega
          rw [hr, hi]
          rfl
        · have hi : i ≠ 2 := by omega
          have e1 : (rem == 0) = false := by simp [hr]
          have e2 : (i == 2) = false := by simp [hi]
          rw [e1, e2]
      cases r with
      | ok blob =>
          rcases List.mem_cons.mp hb with hb2 | hb2
          · exact hhead hb2
          · exact absurd hb2 (hnm j b)
      | error e =>
          cases e with
          | sourceFileNotFound =>
              rcases List.mem_cons.mp hb with hb2 | hb2
              · exact hhead hb2
              · exact absurd hb2 (hnm j b)
          | blobFileChanged =>
              cases hrs : restat i with
              | none =>
                  rw [hrs] at hb
                  rcases List.mem_cons.mp hb with hb2 | hb2
                  · exact hhead hb2
                  · exact absurd hb2 (hnm j b)
              | some stNew =>
                  rw [hrs] at hb
                  simp only [List.cons_append, List.mem_cons, List.mem_append] at hb
                  rcases hb with hb2 | hb2 | hb2
                  · exact hhead hb2
                  · exact absurd hb2 (hnm j b)
                  · exact ih (i + 1) stNew (by unfold BLOB_FILE_CHANGED_RETRY_COUNT at h ⊢; omega)
                      j b hb2

/-- C4: blob acquisition performs at most 3 attempts; an attempt-start
marker carries `last_chance` exactly on the third attempt; a
`last_chance` attempt chooses the `copy_hash` policy; the loop result is
`VolatileBlobFile` exactly when all three attempts raise
`_BlobFileChanged` (each re-stat succeeding); and an attempt that raises
`_BlobFileChanged` is caught, the source re-stat'ed and the next attempt
started. -/
theorem retry_loop_behavior (cfg : Cfg) (oracles : Nat → AttemptOracle)
    (restat : Nat → Option Stat) (st0 : Stat) :
    attemptCountOf (getOrCreateBlob cfg oracles restat st0).1 ≤ BLOB_FILE_CHANGED_RETRY_COUNT
    ∧ (∀ i b, Event.attemptStart i b ∈ (getOrCreateBlob cfg oracles restat st0).1 →
        b = (i == 2))
    ∧ (∀ st o, attemptPolicyOf (attemptOnce cfg true st o).1
        = some BlobCreatePolicy.copy_hash)
    ∧ ((getOrCreateBlob cfg oracles restat st0).2 = Except.error RunErr.volatileBlobFile
        ↔ allThreeBlobFileChanged cfg oracles restat st0)
    ∧ (∀ st1, (attemptOnce cfg false st0 (oracles 0)).2 = Except.error AErr.blobFileChanged →
        restat 0 = some st1 →
        Event.attemptStart 1 false ∈ (getOrCreateBlob cfg oracles restat st0).1) := by
  refine ⟨retryGo_attemptCount cfg oracles restat 3 0 st0,
    fun i b hb => retryGo_marker_lastChance cfg oracles restat 3 0 st0 rfl i b hb,
    ?_, ?_, ?_⟩
  · intro st o
    rcases hf : attemptFinish cfg st o Chosen.copy_hash with ⟨evs2, r2⟩
    simp [attemptOnce, attemptSelect, hf, attemptPolicyOf]
  · unfold getOrCreateBlob BLOB_FILE_CHANGED_RETRY_COUNT allThreeBlobFileChanged
    simp only [retryGo, show ((2 : Nat) == 0) = false from rfl,
      show ((1 : Nat) == 0) = false from rfl, show ((0 : Nat) == 0) = true from rfl]
    rcases h0 : attemptOnce cfg false st0 (oracles 0) with ⟨e0, r0⟩
    cases r0 with
    | ok blob0 => simp
    | error e =>
      cases e with
      | sourceFileNotFound => simp
      | blobFileChanged =>
        cases hrs0 : restat 0 with
        | none => simp [hrs0]
        | some st1 =>
          simp only [hrs0]
          rcases h1 : attemptOnce cfg false st1 (oracles 1) with ⟨e1, r1⟩
          cases r1 with
          | ok blob1 => simp
          | error e =>
            cases e with
            | sourceFileNotFound => simp
            | blobFileChanged =>
              cases hrs1 : restat 1 with
              | none => simp [hrs1]
              | some st2 =>
                simp only [hrs1]
                rcases h2 : attemptOnce cfg true st2 (oracles 2) with ⟨e2, r2⟩
                cases r2 with
                | ok blob2 => simp
                | error e =>
                  cases e with
                  | sourceFileNotFound => simp
                  | blobFileChanged =>
                    cases hrs2 : restat 2 with
                    | none => simp [hrs2]
                    | some st3 => simp [hrs2, retryGo]
  · intro st1 hbfc hrs
    unfold getOrCreateBlob BLOB_FILE_CHANGED_RETRY_COUNT
    simp only [retryGo, show ((2 : Nat) == 0) = false from rfl,
      show ((1 : Nat) == 0) = false from rfl, show ((0 : Nat) == 0) = true from rfl]
    rcases h0 : attemptOnce cfg false st0 (oracles 0) with ⟨e0, r0⟩
    rw [h0] at hbfc
    simp only at hbfc
    subst hbfc
    simp only [hrs]
    rcases h1 : attemptOnce cfg false st1 (oracles 1) with ⟨e1, r1⟩
    cases r1 with
    | ok blob1 => simp
    | error e =>
      cases e with
      | sourceFileNotFound => simp
      | blobFileChanged =>
        cases hrs1 : restat 1 with
        | none => simp [hrs1]
        | some st2 => simp [hrs1]

/-- Witness for the retry-loop theorem at a concrete input: the first
attempt raises `_BlobFileChanged`, the re-stat succeeds, and the second
attempt starts. -/
theorem retry_loop_behavior_witness :
    ((attemptOnce cfgNoCow false ⟨100, 0⟩ oracleGrown).2 = Except.error AErr.blobFileChanged
      ∧ (fun _ : Nat => some (⟨100, 0⟩ : Stat)) 0 = some ⟨100, 0⟩)
    ∧ Event.attemptStart 1 false ∈
        (getOrCreateBlob cfgNoCow (fun _ => oracleGrown) (fun _ => some ⟨100, 0⟩) ⟨100, 0⟩).1 := by
  refine ⟨⟨rfl, rfl⟩, ?_⟩
  exact (retry_loop_behavior cfgNoCow (fun _ => oracleGrown) (fun _ => some ⟨100, 0⟩)
    ⟨100, 0⟩).2.2.2.2 ⟨100, 0⟩ rfl rfl

/-- C10: when a `_BlobFileChanged` retry re-stats a source that has been
deleted, the bare `lstat` of line 625 raises a plain `FileNotFoundError`
(not wrapped as `_SourceFileNotFound`), and the coordinator's handler,
which catches only `_SourceFileNotFound`, propagates it regardless of the
skip-missing pattern configuration. -/
theorem restat_failure_never_suppressed (cfg : Cfg) (oracles : Nat → AttemptOracle)
    (restat : Nat → Option Stat) (st0 : Stat)
    (hbfc : (attemptOnce cfg false st0 (oracles 0)).2 = Except.error AErr.blobFileChanged)
    (hgone : restat 0 = none) :
    (getOrCreateBlob cfg oracles restat st0).2 = Except.error RunErr.fileNotFoundPlain
    ∧ ∀ shouldSkip, handleCreateFileError shouldSkip RunErr.fileNotFoundPlain
        = some RunErr.fileNotFoundPlain := by
  constructor
  · unfold getOrCreateBlob BLOB_FILE_CHANGED_RETRY_COUNT
    simp only [retryGo, show ((2 : Nat) == 0) = false from rfl]
    rcases h0 : attemptOnce cfg false st0 (oracles 0) with ⟨e0, r0⟩
    rw [h0] at hbfc
    simp only at hbfc
    subst hbfc
    simp [hgone]
  · intro shouldSkip
    rfl

/-- Witness for the re-stat propagation theorem at a concrete input: the
file grows (first attempt raises `_BlobFileChanged`) and is then deleted
(re-stat fails); the plain `FileNotFoundError` escapes even with the
skip-missing configuration matching. -/
theorem restat_failure_never_suppressed_witness :
    ((attemptOnce cfgNoCow false ⟨100, 0⟩ oracleGrown).2 = Except.error AErr.blobFileChanged
      ∧ (fun _ : Nat => (none : Option Stat)) 0 = none)
    ∧ (getOrCreateBlob cfgNoCow (fun _ => oracleGrown) (fun _ => none) ⟨100, 0⟩).2
        = Except.error RunErr.fileNotFoundPlain
    ∧ handleCreateFileError true RunErr.fileNotFoundPlain = some RunErr.fileNotFoundPlain := by
  refine ⟨⟨rfl, rfl⟩, ?_, ?_⟩
  · exact (restat_failure_never_suppressed cfgNoCow (fun _ => oracleGrown) (fun _ => none)
      ⟨100, 0⟩ rfl rfl).1
  · exact (restat_failure_never_suppressed cfgNoCow (fun _ => oracleGrown) (fun _ => none)
      ⟨100, 0⟩ rfl rfl).2 true

/-- C6 counterexample: the claim calls the stored mtime "truncating"
division, but Python `//` is floor division; at `st_mtime_ns = -1` the
code stores `-1` while truncation would give `0`. -/
theorem mtime_not_truncating_counterexample :
    createFileMtime (-1) = -1 ∧ truncatedMtime (-1) = 0
    ∧ createFileMtime (-1) ≠ truncatedMtime (-1) := by
  refine ⟨rfl, rfl, ?_⟩
  decide

/-- C6 (amended): the stored mtime is `st_mtime_ns` floor-divided by 1000,
the reuse detector's key uses exactly the same floor division (so a file
whose stat is unchanged between runs always produces an equal mtime key),
and for non-negative `st_mtime_ns` the floor division agrees with the
truncating division the spec names. -/
theorem mtime_floor_division_consistent (mtimeNs : Int) :
    createFileMtime mtimeNs = reuseKeyMtime mtimeNs
    ∧ (0 ≤ mtimeNs → createFileMtime mtimeNs = truncatedMtime mtimeNs) := by
  refine ⟨rfl, fun h => ?_⟩
  unfold createFileMtime truncatedMtime
  rcases Int.eq_ofNat_of_zero_le h with ⟨n, rfl⟩
  cases n <;> rfl

/-- Witness for the mtime theorem at a concrete non-negative timestamp. -/
theorem mtime_floor_division_consistent_witness :
    (createFileMtime 1234567 = reuseKeyMtime 1234567
      ∧ ((0 : Int) ≤ 1234567 → createFileMtime 1234567 = truncatedMtime 1234567))
    ∧ (0 : Int) ≤ 1234567 ∧ createFileMtime 1234567 = 1234 := by
  refine ⟨mtime_floor_division_consistent 1234567, by decide, by decide⟩

/-- C7: a batch fetcher issues its batched catalog query exactly when it
has at least one pending task and (the pending count is at least
`max_batch_size`, or at least 0.1 s elapsed since the first task of the
current batch was queued, or the coordinator explicitly requests a
flush); after a batch runs, the pending task list and the distinct-key
set are cleared; the default `max_batch_size` is 100. -/
theorem fetcher_flush_condition {κ τ : Type} (now : ℤ) (f : FetcherState κ τ) :
    ((flushIfNeeded now f).2.isSome
      ↔ (f.tasks ≠ [] ∧ (f.maxBatchSize ≤ f.tasks.length
          ∨ (100 : ℤ) ≤ now - f.firstTaskScheduledTime)))
    ∧ ((flushFetcher f).2.isSome ↔ f.tasks ≠ [])
    ∧ ((flushIfNeeded now f).2.isSome →
        (flushIfNeeded now f).1.tasks = [] ∧ (flushIfNeeded now f).1.keys = [])
    ∧ ((flushFetcher f).2.isSome →
        (flushFetcher f).1.tasks = [] ∧ (flushFetcher f).1.keys = [])
    ∧ (emptyFetcher τ).maxBatchSize = 100 := by
  refine ⟨?_, ?_, ?_, ?_, rfl⟩ <;>
    simp only [flushIfNeeded, flushFetcher, batchRun] <;>
    split <;>
    simp_all [List.length_pos]

/-- Witness for the fetcher flush theorem at a concrete fetcher with one
pending task: the coordinator-requested flush runs the batch and clears
the state. -/
theorem fetcher_flush_condition_witness :
    ((flushFetcher (⟨[(5, 0)], [5], 0, 100⟩ : FetcherState Nat Nat)).2.isSome
      ↔ ([((5 : Nat), (0 : Nat))] : List (Nat × Nat)) ≠ [])
    ∧ ((flushFetcher (⟨[(5, 0)], [5], 0, 100⟩ : FetcherState Nat Nat)).1.tasks = []
        ∧ (flushFetcher (⟨[(5, 0)], [5], 0, 100⟩ : FetcherState Nat Nat)).1.keys = []) := by
  refine ⟨(fetcher_flush_condition 0 _).2.1, ?_⟩
  exact (fetcher_flush_condition 0 ⟨[(5, 0)], [5], 0, 100⟩).2.2.2.1 (by decide)

theorem applyCallbacks_reverse (ans : Nat → SchedRsp)
    (l : List (Nat × (SchedRsp → Gen))) (queue : List Gen) :
    applyCallbacks ans l.reverse queue
      = l.map (fun kc => kc.2 (ans kc.1)) ++ queue := by
  induction l generalizing queue with
  | nil => simp [applyCallbacks]
  | cons x xs ih =>
      have hsplit : applyCallbacks ans (xs.reverse ++ [x]) queue
          = applyCallbacks ans [x] (applyCallbacks ans xs.reverse queue) := by
        simp [applyCallbacks, List.foldl_append]
      rw [List.reverse_cons, hsplit, ih]
      simp [applyCallbacks]

/-- C2 (amended): when a batch flushes, invoking its callbacks in REVERSE
order of enqueue — each callback prepending its resumed task to the deque
front — places the batch's tasks at the deque front in their original
enqueue (scanner) order; but File-row order across the whole run can
still deviate from scanner order (see the counterexample). -/
theorem batch_callbacks_restore_enqueue_order (ans : Nat → SchedRsp)
    (f : FetcherState Nat (SchedRsp → Gen)) (queue : List Gen) :
    applyCallbacks ans (batchRun f).2.1 queue
      = f.tasks.map (fun kc => kc.2 (ans kc.1)) ++ queue := by
  have h : (batchRun f).2.1 = f.tasks.reverse := rfl
  rw [h, applyCallbacks_reverse]

/-- C2 counterexample: with scanner order `[0, 1]`, where task 0 suspends
on a hash lookup and task 1 completes immediately, the coordinator
appends the File rows as `[1, 0]` — not the scanner's emission order. -/
theorem file_order_counterexample :
    counterexampleRun.files = [1, 0] ∧ counterexampleRun.files ≠ [0, 1] := by
  constructor
  · decide
  · decide

/-- C8 counterexample: a non-reused size-0 regular file with
`can_copy_on_write` true is ingested with the `default` policy, not
`read_all`. -/
theorem empty_file_policy_counterexample :
    canCow cfgCow ⟨0, 0⟩ = true
    ∧ attemptPolicyOf (attemptOnce cfgCow false ⟨0, 0⟩ (emptyFileOracle "he" none)).1
        = some BlobCreatePolicy.default
    ∧ attemptPolicyOf (attemptOnce cfgCow false ⟨0, 0⟩ (emptyFileOracle "he" none)).1
        ≠ some BlobCreatePolicy.read_all := by
  refine ⟨rfl, rfl, by decide⟩

theorem empty_attempt_uncached (cfg : Cfg) (dev : Nat) (h0 : String)
    (hcw : canCow cfg ⟨0, dev⟩ = false) :
    attemptOnce cfg false ⟨0, dev⟩ (emptyFileOracle h0 none)
      = ([Event.policyChosen BlobCreatePolicy.read_all, Event.hashKnown h0,
          Event.hashReq h0, Event.rollbackAdd (getBlobPath h0),
          Event.writeBlob (getBlobPath h0)],
        Except.ok (createBlobRow h0 (cfg.compressFromSize 0) 0 0)) := by
  simp [attemptOnce, attemptSelect, attemptFinish, emptyFileOracle, hcw, dedupCheck,
    READ_ALL_SIZE_THRESHOLD]

theorem empty_attempt_cached (cfg : Cfg) (dev : Nat) (h0 : String) (b : Blob)
    (hcw : canCow cfg ⟨0, dev⟩ = false) :
    attemptOnce cfg false ⟨0, dev⟩ (emptyFileOracle h0 (some b))
      = ([Event.policyChosen BlobCreatePolicy.read_all, Event.hashKnown h0],
        Except.ok b) := by
  simp [attemptOnce, attemptSelect, attemptFinish, emptyFileOracle, hcw, dedupCheck,
    READ_ALL_SIZE_THRESHOLD]

/-- Once the zero-byte blob row is cached, every further empty-file
attempt returns it from the cache: no additional blob file is written,
and the policy is still `read_all`. -/
theorem emptyFilesRun_cached (cfg : Cfg) (dev : Nat) (h0 : String) (b : Blob)
    (hcw : canCow cfg ⟨0, dev⟩ = false) :
    ∀ n, writeBlobCountOf (emptyFilesRun cfg ⟨0, dev⟩ h0 n (some b)) = 0
      ∧ ∀ p, Event.policyChosen p ∈ emptyFilesRun cfg ⟨0, dev⟩ h0 n (some b) →
          p = BlobCreatePolicy.read_all := by
  intro n
  induction n with
  | zero => simp [emptyFilesRun, writeBlobCountOf, writtenBlobPaths]
  | succ n ih =>
      simp only [emptyFilesRun, empty_attempt_cached cfg dev h0 b hcw]
      constructor
      · rw [writeBlobCountOf_append]
        simpa [writeBlobCountOf, writtenBlobPaths] using ih.1
      · intro p hp
        rcases List.mem_append.mp hp with h | h
        · simp at h
          exact h
        · exact ih.2 p h

/-- C8 (amended): in a run whose coordinator cache and catalog initially
lack the zero-byte blob, every non-reused empty regular file handled by a
non-final attempt with no pre-computed hash and `can_cow` false chooses
the `read_all` policy, and exactly one blob file is written across all
those empty files. -/
theorem empty_files_single_blob (cfg : Cfg) (dev : Nat) (h0 : String) (n : Nat)
    (hcw : canCow cfg ⟨0, dev⟩ = false) (hn : 1 ≤ n) :
    writeBlobCountOf (emptyFilesRun cfg ⟨0, dev⟩ h0 n none) = 1
    ∧ ∀ p, Event.policyChosen p ∈ emptyFilesRun cfg ⟨0, dev⟩ h0 n none →
        p = BlobCreatePolicy.read_all := by
  obtain ⟨m, rfl⟩ : ∃ m, n = m + 1 := ⟨n - 1, by omega⟩
  simp only [emptyFilesRun, empty_attempt_uncached cfg dev h0 hcw]
  have hrest := emptyFilesRun_cached cfg dev h0
    (createBlobRow h0 (cfg.compressFromSize 0) 0 0) hcw m
  constructor
  · rw [writeBlobCountOf_append, hrest.1]
    simp [writeBlobCountOf, writtenBlobPaths]
  · intro p hp
    rcases List.mem_append.mp hp with h | h
    · simp at h
      exact h
    · exact hrest.2 p h

/-- Witness for the empty-file theorem at a concrete input: two empty
files, no COW, cache and catalog initially lacking the zero blob; one
blob write in total. -/
theorem empty_files_single_blob_witness :
    (canCow cfgNoCow ⟨0, 0⟩ = false ∧ (1 : Nat) ≤ 2)
    ∧ writeBlobCountOf (emptyFilesRun cfgNoCow ⟨0, 0⟩ "he" 2 none) = 1 := by
  refine ⟨⟨rfl, by decide⟩, ?_⟩
  exact (empty_files_single_blob cfgNoCow 0 "he" 2 rfl (by decide)).1

end PrimeBackup
